import Mathlib

/-!
Verification development for the dashboard backend's hard core
(src/backend/src/mcp-client.js and src/backend/src/device-cache.js).

The JavaScript is shallowly embedded: the mutable singleton objects become
explicit state records, every method becomes a pure function from the old
state to the new state (together with the externally observable actions it
performs, such as settling a caller's promise or scheduling a timer), and
JS `Map` objects become association lists whose keys are kept unique by
construction (setting a key is an upsert, deletion removes the key).
Wall-clock reads (`Date.now()`) become explicit `now` parameters.
-/

/-- Lookup in the association-list model of a JS `Map` (first match wins;
keys are unique by construction, so this is the Map lookup). -/
def mapLookup {α : Type} (l : List (Nat × α)) (k : Nat) : Option α :=
  match l with
  | [] => none
  | (k2, v) :: t => if k2 = k then some v else mapLookup t k

/-- Upsert in the association-list model of a JS `Map.set`: overwrite the
existing entry in place, otherwise append at the end (JS insertion order). -/
def mapSet {α : Type} (l : List (Nat × α)) (k : Nat) (v : α) : List (Nat × α) :=
  match l with
  | [] => [(k, v)]
  | (k2, v2) :: t => if k2 = k then (k, v) :: t else (k2, v2) :: mapSet t k v

/-- Deletion in the association-list model of a JS `Map.delete` (keys are
unique, so removing every occurrence removes the one entry). -/
def mapErase {α : Type} (l : List (Nat × α)) (k : Nat) : List (Nat × α) :=
  match l with
  | [] => []
  | (k2, v) :: t => if k2 = k then mapErase t k else (k2, v) :: mapErase t k

theorem mapLookup_mapSet_self {α : Type} (l : List (Nat × α)) (k : Nat) (v : α) :
    mapLookup (mapSet l k v) k = some v := by
  induction l with
  | nil => simp [mapSet, mapLookup]
  | cons h t ih =>
    obtain ⟨k2, v2⟩ := h
    by_cases hk : k2 = k
    · simp [mapSet, hk, mapLookup]
    · simp [mapSet, hk, mapLookup, ih]

theorem mapLookup_mapSet_ne {α : Type} (l : List (Nat × α)) (k k2 : Nat) (v : α)
    (h : k2 ≠ k) : mapLookup (mapSet l k v) k2 = mapLookup l k2 := by
  have h2 : k ≠ k2 := Ne.symm h
  induction l with
  | nil => simp [mapSet, mapLookup, h2]
  | cons hd t ih =>
    obtain ⟨k3, v3⟩ := hd
    by_cases hk : k3 = k
    · subst hk
      simp [mapSet, mapLookup, h2]
    · by_cases hk2 : k3 = k2
      · simp [mapSet, hk, mapLookup, hk2, h]
      · simp [mapSet, hk, mapLookup, hk2, ih]

theorem mapLookup_mapErase_self {α : Type} (l : List (Nat × α)) (k : Nat) :
    mapLookup (mapErase l k) k = none := by
  induction l with
  | nil => simp [mapErase, mapLookup]
  | cons hd t ih =>
    obtain ⟨k2, v2⟩ := hd
    by_cases hk : k2 = k
    · simpa [mapErase, hk] using ih
    · simp [mapErase, hk, mapLookup, ih]

theorem mapLookup_mapErase_ne {α : Type} (l : List (Nat × α)) (k k2 : Nat)
    (h : k2 ≠ k) : mapLookup (mapErase l k) k2 = mapLookup l k2 := by
  have h2 : k ≠ k2 := Ne.symm h
  induction l with
  | nil => simp [mapErase, mapLookup]
  | cons hd t ih =>
    obtain ⟨k3, v3⟩ := hd
    by_cases hk : k3 = k
    · subst hk
      simp [mapErase, mapLookup, h2, ih]
    · by_cases hk2 : k3 = k2
      · simp [mapErase, hk, mapLookup, hk2, h]
      · simp [mapErase, hk, mapLookup, hk2, ih]

/-- Error object carried by a JSON-RPC error response
(`jsonData.error`, whose `.message` may be absent or empty). -/
structure JsonErr where
  message : Option String
deriving DecidableEq, Repr

/-- Decoded JSON-RPC response relevant to the correlator dispatch in
`handleSSELine` (mcp-client.js lines 279-288): the `id` field (0 models an
absent or zero id, which is falsy in JS) and the optional `error` field.
`resolve` is handed the whole decoded object, modelled by the message
itself. -/
structure JsonMsg where
  id : Nat
  error : Option JsonErr
deriving DecidableEq, Repr

/-- Outcome delivered to a caller's promise. -/
inductive Outcome where
  | resolved (msg : JsonMsg)
  | rejected (err : String)
deriving DecidableEq, Repr

/-- Observable settlement of one pending caller: which stored continuation
(tagged by the promise tag recorded in the pending table) was completed and
with what. -/
structure Settlement where
  tag : Nat
  outcome : Outcome
deriving DecidableEq, Repr

/-- State of the MCPClient singleton (mcp-client.js constructor, lines
6-28).  Promises/continuations are modelled by numeric tags; `httpClient`
records only presence (JS truthiness of the axios instance); timers are
modelled by the scheduling actions the methods return. -/
structure MCPClientState where
  connected : Bool
  eventSource : Option Unit
  requestId : Nat
  pendingRequests : List (Nat × Nat)
  mcpEndpoint : Option String
  sessionId : Option String
  httpClient : Bool
  currentEventType : Option String
  reconnectAttempts : Nat
  isReconnecting : Bool
  lastActivity : Nat
deriving DecidableEq, Repr

/-- Constructor state of the MCPClient (mcp-client.js lines 6-28);
`Date.now()` at construction is modelled as 0. -/
def initMCPClient : MCPClientState where
  connected := false
  eventSource := none
  requestId := 1
  pendingRequests := []
  mcpEndpoint := none
  sessionId := none
  httpClient := false
  currentEventType := none
  reconnectAttempts := 0
  isReconnecting := false
  lastActivity := 0

/-- Effective `isConnected()` of the class (mcp-client.js lines 520-522).
The class body contains two `isConnected` method definitions; under JS
class semantics the later definition shadows the earlier one, so this is
the method callers actually invoke: it returns only the raw flag. -/
def isConnected (s : MCPClientState) : Bool :=
  s.connected

/-- Shadowed first `isConnected()` definition (mcp-client.js lines
296-298): `this.connected && this.httpClient && this.mcpEndpoint`, the
strict check requiring the flag, the axios client and a discovered
endpoint.  Dead code at runtime, because the second definition wins. -/
def isConnectedShadowed (s : MCPClientState) : Bool :=
  s.connected && s.httpClient && s.mcpEndpoint.isSome

/-- Method `disconnect()` (mcp-client.js lines 508-518).  The second
component lists the promise settlements the method performs: it performs
none — `this.pendingRequests.clear()` empties the table without resolving
or rejecting any stored continuation. -/
def disconnect (s : MCPClientState) : MCPClientState × List Settlement :=
  ({ s with
      connected := false
      eventSource := none
      httpClient := false
      mcpEndpoint := none
      sessionId := none
      pendingRequests := [] },
   [])

/-- Error message attached to a rejected JSON-RPC error response:
`jsonData.error.message || 'MCP error'` (an absent or empty message is
falsy in JS). -/
def errMessage (e : JsonErr) : String :=
  match e.message with
  | some m => if m = ("") then ("MCP error") else m
  | none => ("MCP error")

/-- Correlator dispatch for a decoded JSON data line (mcp-client.js lines
279-288): `if (jsonData.id && this.pendingRequests.has(jsonData.id))` then
look up the stored continuations, delete the entry, and reject (when an
`error` field is present) or resolve the caller. -/
def handleMCPResponse (s : MCPClientState) (j : JsonMsg) :
    MCPClientState × List Settlement :=
  if j.id = 0 then (s, [])
  else
    match mapLookup s.pendingRequests j.id with
    | none => (s, [])
    | some tag =>
      ({ s with pendingRequests := mapErase s.pendingRequests j.id },
       [⟨tag, match j.error with
              | some e => Outcome.rejected (errMessage e)
              | none => Outcome.resolved j⟩])

/-- Method `sendMCPRequest` (mcp-client.js lines 311-352), up to handing
the POST to the transport: the connectivity guards (lines 313-320), then
allocation of the next id and registration of the caller's continuations
in the pending table under that id (lines 322-331).  Returns the new state
and the allocated id; the guard failures are the thrown errors. -/
def sendMCPRequest (s : MCPClientState) (method : String)
    (allowDuringInit : Bool) (tag : Nat) :
    Except String (MCPClientState × Nat) :=
  if ¬allowDuringInit ∧ isConnected s = false then
    Except.error ("MCP client not connected")
  else if ¬(s.httpClient = true ∧ s.mcpEndpoint.isSome = true) then
    Except.error ("MCP client missing required components")
  else
    Except.ok
      ({ s with
          requestId := s.requestId + 1
          pendingRequests := mapSet s.pendingRequests s.requestId tag },
       s.requestId)

/-- Notification sender `sendMCPNotification` (mcp-client.js lines
354-374): the same guards as `sendMCPRequest`, but no id is allocated and
nothing is recorded in the pending table. -/
def sendMCPNotification (s : MCPClientState) (allowDuringInit : Bool) :
    Except String MCPClientState :=
  if ¬allowDuringInit ∧ isConnected s = false then
    Except.error ("MCP client not connected")
  else if ¬(s.httpClient = true ∧ s.mcpEndpoint.isSome = true) then
    Except.error ("MCP client missing required components")
  else
    Except.ok s

/-- Backoff base delay in ms (`this.reconnectDelay`, mcp-client.js line 19). -/
def reconnectDelayBase : Nat := 1000

/-- Backoff ceiling in ms (`this.maxReconnectDelay`, mcp-client.js line 20). -/
def maxReconnectDelay : Nat := 30000

/-- Maximum immediate reconnection attempts (`this.maxReconnectAttempts`,
mcp-client.js line 18). -/
def maxReconnectAttempts : Nat := 10

/-- Timer scheduling performed by `scheduleReconnect`: nothing, a retry
timer after the given delay, or the 5-minute cooldown timer. -/
inductive ReconnectAction where
  | idle
  | retry (delayMs : Nat)
  | cooldown (delayMs : Nat)
deriving DecidableEq, Repr

/-- Method `scheduleReconnect` (mcp-client.js lines 45-82).  When already
reconnecting or out of attempts it schedules nothing, except that at or
beyond the attempt cap it schedules the 300000 ms cooldown timer; otherwise
it marks reconnection in progress, increments the attempt counter and
schedules a retry after `min(reconnectDelay * 2^(attempts-1),
maxReconnectDelay)` using the incremented counter. -/
def scheduleReconnect (s : MCPClientState) : MCPClientState × ReconnectAction :=
  if s.isReconnecting = true ∨ maxReconnectAttempts ≤ s.reconnectAttempts then
    if maxReconnectAttempts ≤ s.reconnectAttempts then
      (s, ReconnectAction.cooldown 300000)
    else
      (s, ReconnectAction.idle)
  else
    let a := s.reconnectAttempts + 1
    ({ s with isReconnecting := true, reconnectAttempts := a },
     ReconnectAction.retry (min (reconnectDelayBase * 2 ^ (a - 1)) maxReconnectDelay))

/-- Callback of the cooldown timer (mcp-client.js lines 49-52): reset the
attempt counter to 0 and call `scheduleReconnect` again. -/
def cooldownTimerFire (s : MCPClientState) : MCPClientState × ReconnectAction :=
  scheduleReconnect { s with reconnectAttempts := 0 }

/-- First step of the retry timer callback (mcp-client.js line 68), before
the asynchronous connect attempt: clear the reconnecting flag. -/
def retryTimerFire (s : MCPClientState) : MCPClientState :=
  { s with isReconnecting := false }

/-- Attempt-counter reset performed on a successful connection
(mcp-client.js lines 36 and 74). -/
def connectSuccessReset (s : MCPClientState) : MCPClientState :=
  { s with reconnectAttempts := 0 }

/-- Handler of the stream `end` event (mcp-client.js lines 183-187): mark
disconnected and schedule a reconnect.  Neither the endpoint nor the
pending-request table is touched. -/
def onStreamEnd (s : MCPClientState) : MCPClientState × ReconnectAction :=
  scheduleReconnect { s with connected := false }

/-- Handler of the stream `error` event (mcp-client.js lines 189-193):
mark disconnected (the connect promise is rejected, which is outside the
client state).  Neither the endpoint nor the pending-request table is
touched. -/
def onStreamError (s : MCPClientState) : MCPClientState :=
  { s with connected := false }

/-- One of the three paths that can complete a pending request: a decoded
response data line (mcp-client.js lines 279-288), the 10 s request timer
(lines 336-341), or a failure of the outbound HTTP POST (lines 344-350).
The timer and POST-failure closures carry the tag of the continuation they
captured and, for the timer, the method name in its message. -/
inductive CompletionPath where
  | response (j : JsonMsg)
  | timerFire (id : Nat) (tag : Nat) (method : String)
  | postFailure (id : Nat) (tag : Nat) (err : String)
deriving DecidableEq, Repr

/-- Request id targeted by a completion path. -/
def pathId (p : CompletionPath) : Nat :=
  match p with
  | CompletionPath.response j => j.id
  | CompletionPath.timerFire id _ _ => id
  | CompletionPath.postFailure id _ _ => id

/-- Run one completion path against the client state.  Each path first
checks that its id is still in the pending table, deletes it, and only
then settles the caller, exactly as in the source. -/
def runPath (s : MCPClientState) (p : CompletionPath) :
    MCPClientState × List Settlement :=
  match p with
  | CompletionPath.response j => handleMCPResponse s j
  | CompletionPath.timerFire id tag method =>
    if (mapLookup s.pendingRequests id).isSome then
      ({ s with pendingRequests := mapErase s.pendingRequests id },
       [⟨tag, Outcome.rejected (("MCP request timeout: ") ++ method)⟩])
    else
      (s, [])
  | CompletionPath.postFailure id tag err =>
    if (mapLookup s.pendingRequests id).isSome then
      ({ s with pendingRequests := mapErase s.pendingRequests id },
       [⟨tag, Outcome.rejected err⟩])
    else
      (s, [])

/-- Payload of an SSE `data:` line: the raw string after the prefix and,
when `JSON.parse` succeeds on it, the decoded JSON-RPC message (the fields
of the decoded object the dispatch inspects). -/
structure SSEData where
  raw : String
  parsed : Option JsonMsg
deriving DecidableEq, Repr

/-- A decoded SSE line as classified by `handleSSELine` (mcp-client.js
lines 260-294): blank, an `event: <type>` announcement, or a `data:`
payload. -/
inductive SSELine where
  | blank
  | eventKind (t : String)
  | dataLine (d : SSEData)
deriving DecidableEq, Repr

/-- Method `handleSSELine` (mcp-client.js lines 260-294): blank lines are
skipped; an event announcement is remembered; a data line is captured
verbatim as the endpoint when the current event type is `endpoint`, and is
otherwise dispatched to the correlator when it decodes as JSON (non-JSON
data is logged and discarded). -/
def handleSSELine (s : MCPClientState) (l : SSELine) :
    MCPClientState × List Settlement :=
  match l with
  | SSELine.blank => (s, [])
  | SSELine.eventKind t => ({ s with currentEventType := some t }, [])
  | SSELine.dataLine d =>
    if s.currentEventType = some ("endpoint") then
      ({ s with mcpEndpoint := some d.raw }, [])
    else
      match d.parsed with
      | some j => handleMCPResponse s j
      | none => (s, [])

/-- Reachable client state with the connected flag raised and an axios
client present but no discovered endpoint (exactly the situation after a
stream drop left a stale flag, or before endpoint discovery). -/
def stateNoEndpoint : MCPClientState :=
  { initMCPClient with connected := true, httpClient := true, mcpEndpoint := none }

/-- C1: the claim says `isConnected()` returns false whenever the endpoint
is absent.  The effective `isConnected()` (the second definition in the
class body, which shadows the first under JS semantics) returns the raw
flag, so with the flag raised and no endpoint it returns true; only the
shadowed dead first definition implements the specified conjunction. -/
theorem c1_isConnected_true_without_endpoint :
    isConnected stateNoEndpoint = true ∧
    stateNoEndpoint.mcpEndpoint = none ∧
    isConnectedShadowed stateNoEndpoint = false :=
  ⟨rfl, rfl, rfl⟩

/-- Connected client state with one outstanding pending request (id 1,
caller continuation tagged 0). -/
def statePendingOne : MCPClientState :=
  { initMCPClient with
      connected := true
      httpClient := true
      mcpEndpoint := some ("/mcp_server/messages/abc")
      requestId := 2
      pendingRequests := [(1, 0)] }

/-- C2: the claim says every pending request outstanding at `disconnect()`
is failed immediately and never silently dropped.  In the code
`disconnect()` runs `this.pendingRequests.clear()` and settles nothing,
and after the clear even the request's own 10 s timer finds the id absent
and never rejects, so the caller is never settled at all. -/
theorem c2_disconnect_drops_pending_silently :
    statePendingOne.pendingRequests ≠ [] ∧
    (disconnect statePendingOne).1.pendingRequests = [] ∧
    (disconnect statePendingOne).2 = [] ∧
    runPath (disconnect statePendingOne).1
      (CompletionPath.timerFire 1 0 ("tools/call")) =
      ((disconnect statePendingOne).1, []) := by
  refine ⟨by decide, rfl, rfl, by rfl⟩

/-- Connected client state holding a discovered endpoint, used to exhibit
the behavior of the stream-termination handlers. -/
def stateWithEndpoint : MCPClientState :=
  { initMCPClient with
      connected := true
      httpClient := true
      mcpEndpoint := some ("/mcp_server/messages/abc") }

/-- C7 counterexample: the claim says stream termination clears the stored
endpoint.  At this concrete connected state, both the stream `end` handler
and the stream `error` handler leave `mcpEndpoint` exactly as it was,
while flipping the connected flag. -/
theorem c7_counterexample_endpoint_survives_stream_end :
    stateWithEndpoint.mcpEndpoint ≠ none ∧
    (onStreamEnd stateWithEndpoint).1.mcpEndpoint =
      some ("/mcp_server/messages/abc") ∧
    (onStreamError stateWithEndpoint).mcpEndpoint =
      some ("/mcp_server/messages/abc") ∧
    (onStreamEnd stateWithEndpoint).1.connected = false ∧
    (onStreamError stateWithEndpoint).connected = false := by
  refine ⟨by decide, by rfl, by rfl, by rfl, by rfl⟩

/-- C7 amended: on stream termination (remote close or transport error)
the client reports Disconnected (the flag is cleared and, for the `end`
event, a reconnect is scheduled), but the stored Endpoint is left
unchanged; the Endpoint is cleared only by an explicit `disconnect()`
call. -/
theorem c7_stream_termination_marks_disconnected_keeps_endpoint
    (s : MCPClientState) :
    (onStreamEnd s).1.connected = false ∧
    (onStreamEnd s).1.mcpEndpoint = s.mcpEndpoint ∧
    (onStreamError s).connected = false ∧
    (onStreamError s).mcpEndpoint = s.mcpEndpoint ∧
    (disconnect s).1.mcpEndpoint = none ∧
    (disconnect s).1.connected = false := by
  refine ⟨?_, ?_, rfl, rfl, rfl, rfl⟩
  · unfold onStreamEnd scheduleReconnect
    split
    · split <;> simp
    · simp
  · unfold onStreamEnd scheduleReconnect
    split
    · split <;> simp
    · simp

theorem runPath_of_lookup_none (s : MCPClientState) (q : CompletionPath)
    (h : mapLookup s.pendingRequests (pathId q) = none) :
    runPath s q = (s, []) := by
  cases q with
  | response j =>
    simp only [pathId] at h
    by_cases hj : j.id = 0
    · simp [runPath, handleMCPResponse, hj]
    · simp [runPath, handleMCPResponse, hj, h]
  | timerFire id tag m =>
    simp only [pathId] at h
    simp [runPath, h]
  | postFailure id tag err =>
    simp only [pathId] at h
    simp [runPath, h]

/-- C3: back-to-back sends allocate distinct ids, and replies arriving in
reverse order are each delivered to the continuation registered under the
id they carry: the second request's reply settles the second caller, after
which the first request's reply still settles the first caller. -/
theorem c3_out_of_order_delivery
    (s s1 s2 : MCPClientState) (m1 m2 : String) (a1 a2 : Bool)
    (tag1 tag2 id1 id2 : Nat)
    (hreq : 1 ≤ s.requestId)
    (h1 : sendMCPRequest s m1 a1 tag1 = Except.ok (s1, id1))
    (h2 : sendMCPRequest s1 m2 a2 tag2 = Except.ok (s2, id2)) :
    id1 ≠ id2 ∧
    (handleMCPResponse s2 ⟨id2, none⟩).2 =
      [⟨tag2, Outcome.resolved ⟨id2, none⟩⟩] ∧
    (handleMCPResponse (handleMCPResponse s2 ⟨id2, none⟩).1 ⟨id1, none⟩).2 =
      [⟨tag1, Outcome.resolved ⟨id1, none⟩⟩] := by
  rw [sendMCPRequest] at h1
  split at h1
  · cases h1
  · split at h1
    · cases h1
    · rw [Except.ok.injEq, Prod.mk.injEq] at h1
      obtain ⟨hs1, hid1⟩ := h1
      rw [sendMCPRequest] at h2
      split at h2
      · cases h2
      · split at h2
        · cases h2
        · rw [Except.ok.injEq, Prod.mk.injEq] at h2
          obtain ⟨hs2, hid2⟩ := h2
          subst hs1
          subst hs2
          subst hid1
          subst hid2
          dsimp only
          have hz : ¬(s.requestId + 1 = 0) := by omega
          have hz1 : ¬(s.requestId = 0) := by omega
          have hne : s.requestId ≠ s.requestId + 1 := by omega
          refine ⟨by omega, ?_, ?_⟩
          · rw [handleMCPResponse]
            simp [mapLookup_mapSet_self, hz]
          · rw [handleMCPResponse]
            simp only [mapLookup_mapSet_self, hz, if_false]
            rw [handleMCPResponse]
            simp only [hz1, if_false]
            simp [mapLookup_mapErase_ne _ _ _ hne, mapLookup_mapSet_ne _ _ _ _ hne,
              mapLookup_mapSet_self]

/-- Connected client state with a fresh request counter, used as the
starting point of the correlator witnesses. -/
def connReady : MCPClientState :=
  { initMCPClient with
      connected := true
      httpClient := true
      mcpEndpoint := some ("/mcp_server/messages/abc") }

/-- State of `connReady` after one send (id 1, caller tag 100). -/
def connAfterOne : MCPClientState :=
  { connReady with requestId := 2, pendingRequests := [(1, 100)] }

/-- State of `connAfterOne` after a second send (id 2, caller tag 200). -/
def connAfterTwo : MCPClientState :=
  { connReady with requestId := 3, pendingRequests := [(1, 100), (2, 200)] }

theorem c3_out_of_order_delivery_witness :
    (1 : Nat) ≤ connReady.requestId ∧
    (1 : Nat) ≠ 2 ∧
    (handleMCPResponse connAfterTwo ⟨2, none⟩).2 =
      [⟨200, Outcome.resolved ⟨2, none⟩⟩] ∧
    (handleMCPResponse (handleMCPResponse connAfterTwo ⟨2, none⟩).1 ⟨1, none⟩).2 =
      [⟨100, Outcome.resolved ⟨1, none⟩⟩] := by
  have h := c3_out_of_order_delivery connReady connAfterOne connAfterTwo
    ("tools/call") ("tools/list") false false 100 200 1 2 (by decide) (by rfl) (by rfl)
  exact ⟨by decide, h.1, h.2.1, h.2.2⟩

/-- C4: a pending request whose timer fires is rejected with the timeout
error and removed from the pending table, and any reply carrying the same
id that arrives afterwards settles nothing and changes nothing. -/
theorem c4_timeout_rejects_then_late_reply_ignored
    (s s1 : MCPClientState) (m : String) (a : Bool) (tag id : Nat)
    (h1 : sendMCPRequest s m a tag = Except.ok (s1, id)) :
    (runPath s1 (CompletionPath.timerFire id tag m)).2 =
      [⟨tag, Outcome.rejected (("MCP request timeout: ") ++ m)⟩] ∧
    mapLookup (runPath s1 (CompletionPath.timerFire id tag m)).1.pendingRequests
      id = none ∧
    (∀ j : JsonMsg, j.id = id →
      handleMCPResponse (runPath s1 (CompletionPath.timerFire id tag m)).1 j =
        ((runPath s1 (CompletionPath.timerFire id tag m)).1, [])) := by
  rw [sendMCPRequest] at h1
  split at h1
  · cases h1
  · split at h1
    · cases h1
    · rw [Except.ok.injEq, Prod.mk.injEq] at h1
      obtain ⟨hs1, hid⟩ := h1
      subst hs1
      subst hid
      refine ⟨?_, ?_, ?_⟩
      · simp [runPath, mapLookup_mapSet_self]
      · simp [runPath, mapLookup_mapSet_self, mapLookup_mapErase_self]
      · intro j hj
        have hnone : mapLookup
            (runPath
              { s with
                  requestId := s.requestId + 1
                  pendingRequests := mapSet s.pendingRequests s.requestId tag }
              (CompletionPath.timerFire s.requestId tag m)).1.pendingRequests
            (pathId (CompletionPath.response j)) = none := by
          simp [runPath, mapLookup_mapSet_self, pathId, hj,
            mapLookup_mapErase_self]
        have := runPath_of_lookup_none _ (CompletionPath.response j) hnone
        simpa [runPath] using this

theorem c4_timeout_rejects_then_late_reply_ignored_witness :
    (runPath connAfterOne (CompletionPath.timerFire 1 100 ("tools/call"))).2 =
      [⟨100, Outcome.rejected (("MCP request timeout: ") ++ ("tools/call"))⟩] ∧
    mapLookup (runPath connAfterOne
      (CompletionPath.timerFire 1 100 ("tools/call"))).1.pendingRequests 1 =
      none ∧
    handleMCPResponse
      (runPath connAfterOne (CompletionPath.timerFire 1 100 ("tools/call"))).1
      ⟨1, none⟩ =
      ((runPath connAfterOne (CompletionPath.timerFire 1 100 ("tools/call"))).1,
        []) := by
  have h := c4_timeout_rejects_then_late_reply_ignored connReady connAfterOne
    ("tools/call") false 100 1 (by rfl)
  exact ⟨h.1, h.2.1, h.2.2 ⟨1, none⟩ rfl⟩

/-- C5: on the k-th consecutive failed connect attempt (1 ≤ k ≤ 10, entered
with the attempt counter at k-1 and no reconnect in flight) the scheduled
retry delay is `min(1000 * 2^(k-1), 30000)` ms and the counter becomes k;
at or beyond 10 recorded attempts the next call schedules the 300000 ms
cooldown instead of an exponential delay; the cooldown timer resets the
counter and resumes normal backoff at 1000 ms; a successful connection
resets the counter to zero. -/
theorem c5_backoff_cooldown_and_reset
    (s : MCPClientState) (k : Nat)
    (hk1 : 1 ≤ k) (hk2 : k ≤ 10)
    (hir : s.isReconnecting = false)
    (ha : s.reconnectAttempts = k - 1) :
    (scheduleReconnect s).2 =
      ReconnectAction.retry (min (1000 * 2 ^ (k - 1)) 30000) ∧
    (scheduleReconnect s).1.reconnectAttempts = k ∧
    (∀ s2 : MCPClientState, 10 ≤ s2.reconnectAttempts →
      (scheduleReconnect s2).2 = ReconnectAction.cooldown 300000) ∧
    (∀ s3 : MCPClientState, s3.isReconnecting = false →
      (cooldownTimerFire s3).2 = ReconnectAction.retry 1000 ∧
      (cooldownTimerFire s3).1.reconnectAttempts = 1) ∧
    (∀ s4 : MCPClientState, (connectSuccessReset s4).reconnectAttempts = 0) := by
  have hguard : ¬(s.isReconnecting = true ∨
      maxReconnectAttempts ≤ s.reconnectAttempts) := by
    rw [hir, ha, maxReconnectAttempts]
    simp
    omega
  have hsub : s.reconnectAttempts + 1 - 1 = k - 1 := by omega
  have hkk : s.reconnectAttempts + 1 = k := by omega
  refine ⟨?_, ?_, ?_, ?_, fun s4 => rfl⟩
  · rw [scheduleReconnect, if_neg hguard]
    dsimp only
    rw [hsub]
    rfl
  · rw [scheduleReconnect, if_neg hguard]
    dsimp only
    omega
  · intro s2 h2
    have hg2 : maxReconnectAttempts ≤ s2.reconnectAttempts := by
      rw [maxReconnectAttempts]
      omega
    rw [scheduleReconnect, if_pos (Or.inr hg2), if_pos hg2]
  · intro s3 h3
    rw [cooldownTimerFire, scheduleReconnect]
    have hg3 : ¬(({ s3 with reconnectAttempts := 0 } :
        MCPClientState).isReconnecting = true ∨
        maxReconnectAttempts ≤ ({ s3 with reconnectAttempts := 0 } :
        MCPClientState).reconnectAttempts) := by
      dsimp only
      rw [h3, maxReconnectAttempts]
      simp
    rw [if_neg hg3]
    dsimp only
    refine ⟨?_, rfl⟩
    rw [reconnectDelayBase, maxReconnectDelay]
    norm_num

theorem c5_backoff_cooldown_and_reset_witness :
    (1 : Nat) ≤ 1 ∧ (1 : Nat) ≤ 10 ∧
    initMCPClient.isReconnecting = false ∧
    initMCPClient.reconnectAttempts = 1 - 1 ∧
    (scheduleReconnect initMCPClient).2 = ReconnectAction.retry 1000 ∧
    (scheduleReconnect initMCPClient).1.reconnectAttempts = 1 := by
  have h := c5_backoff_cooldown_and_reset initMCPClient 1
    (by decide) (by decide) rfl rfl
  refine ⟨by decide, by decide, rfl, rfl, ?_, h.2.1⟩
  rw [h.1]
  norm_num

/-- C10 (implicit invariant): every completion path settles its request at
most once, coupling settlement to removal from the pending table: a path
that settles removes the id before anything observes it, a path that does
not settle leaves the state untouched, no path emits more than one
settlement, and once one path has settled an id any later path aimed at
the same id settles nothing. -/
theorem c10_exactly_once_settlement
    (s : MCPClientState) (p q : CompletionPath) :
    ((runPath s p).2 ≠ [] →
      mapLookup (runPath s p).1.pendingRequests (pathId p) = none) ∧
    ((runPath s p).2 = [] → (runPath s p).1 = s) ∧
    ((runPath s p).2.length ≤ 1) ∧
    (pathId q = pathId p → (runPath s p).2 ≠ [] →
      (runPath (runPath s p).1 q).2 = []) := by
  have main : ((runPath s p).2 ≠ [] →
      mapLookup (runPath s p).1.pendingRequests (pathId p) = none) ∧
      ((runPath s p).2 = [] → (runPath s p).1 = s) ∧
      ((runPath s p).2.length ≤ 1) := by
    cases p with
    | response j =>
      by_cases hj : j.id = 0
      · simp [runPath, handleMCPResponse, hj]
      · cases hl : mapLookup s.pendingRequests j.id with
        | none => simp [runPath, handleMCPResponse, hj, hl]
        | some tag =>
          refine ⟨fun _ => ?_, fun hc => ?_, ?_⟩
          · simp [runPath, handleMCPResponse, hj, hl, pathId,
              mapLookup_mapErase_self]
          · simp [runPath, handleMCPResponse, hj, hl] at hc
          · simp [runPath, handleMCPResponse, hj, hl]
    | timerFire id tag m =>
      cases hl : mapLookup s.pendingRequests id with
      | none => simp [runPath, hl]
      | some tag2 =>
        refine ⟨fun _ => ?_, fun hc => ?_, ?_⟩
        · simp [runPath, hl, pathId, mapLookup_mapErase_self]
        · simp [runPath, hl] at hc
        · simp [runPath, hl]
    | postFailure id tag err =>
      cases hl : mapLookup s.pendingRequests id with
      | none => simp [runPath, hl]
      | some tag2 =>
        refine ⟨fun _ => ?_, fun hc => ?_, ?_⟩
        · simp [runPath, hl, pathId, mapLookup_mapErase_self]
        · simp [runPath, hl] at hc
        · simp [runPath, hl]
  refine ⟨main.1, main.2.1, main.2.2, ?_⟩
  intro hq hne
  have hnone : mapLookup (runPath s p).1.pendingRequests (pathId q) = none := by
    rw [hq]
    exact main.1 hne
  rw [runPath_of_lookup_none _ q hnone]

theorem c10_exactly_once_settlement_witness :
    (runPath connAfterOne (CompletionPath.timerFire 1 100 ("tools/call"))).2 ≠
      [] ∧
    (runPath
      (runPath connAfterOne (CompletionPath.timerFire 1 100 ("tools/call"))).1
      (CompletionPath.response ⟨1, none⟩)).2 = [] := by
  have h := c10_exactly_once_settlement connAfterOne
    (CompletionPath.timerFire 1 100 ("tools/call"))
    (CompletionPath.response ⟨1, none⟩)
  have hne : (runPath connAfterOne
      (CompletionPath.timerFire 1 100 ("tools/call"))).2 ≠ [] := by
    decide
  exact ⟨hne, h.2.2.2 rfl hne⟩

/-- The single-quote character, written by code so that the embedding of
the JS quote-stripping stays readable. -/
def quoteChar : Char := Char.ofNat 39

/-- Character class of the JS regexp `\s` restricted to the characters
that can occur here (space, tab, LF, VT, FF, CR). -/
def jsIsSpace (c : Char) : Bool :=
  c = ' ' || c = Char.ofNat 9 || c = Char.ofNat 10 ||
  c = Char.ofNat 11 || c = Char.ofNat 12 || c = Char.ofNat 13

/-- JS `String.prototype.trim` on a character list. -/
def jsTrimL (cs : List Char) : List Char :=
  ((cs.dropWhile jsIsSpace).reverse.dropWhile jsIsSpace).reverse

/-- JS `String.prototype.trim`. -/
def jsTrim (s : String) : String :=
  (jsTrimL s.toList).asString

/-- Strip a literal pattern from the front of the input, returning the
remainder when the input begins with the pattern. -/
def dropLit : List Char → List Char → Option (List Char)
  | [], cs => some cs
  | _ :: _, [] => none
  | p :: ps, c :: cs => if c = p then dropLit ps cs else none

/-- JS `String.prototype.startsWith` on character lists. -/
def startsWithL (pat cs : List Char) : Bool :=
  (dropLit pat cs).isSome

/-- JS `String.prototype.replace` with a plain-string pattern and empty
replacement: remove the first occurrence of the pattern, if any. -/
def replaceFirstL (pat : List Char) : List Char → List Char
  | [] =>
    match dropLit pat ([] : List Char) with
    | some rest => rest
    | none => []
  | c :: t =>
    match dropLit pat (c :: t) with
    | some rest => rest
    | none => c :: replaceFirstL pat t

/-- Split at the first colon: JS `indexOf(':')`, `substring(0, i)` and
`substring(i+1)` in one step (`none` when the string has no colon). -/
def breakAtColon : List Char → Option (List Char × List Char)
  | [] => none
  | c :: t =>
    if c = ':' then some ([], t)
    else
      match breakAtColon t with
      | some (pre, post) => some (c :: pre, post)
      | none => none

/-- Body of the names regexp after the whitespace: one optional quote then
a maximal nonempty run of non-quote characters (the capture group of
the names regexp at a fixed start position, greedy with
backtracking of the optional quote).  The names regexp is
`- names:` then `\s*'?([^']+)'?` (written here without its slash
delimiters). -/
def matchBody : List Char → Option (List Char)
  | [] => none
  | c :: r =>
    if c = quoteChar then
      let run := r.takeWhile (fun c2 => c2 != quoteChar)
      if run.isEmpty then none else some run
    else
      some ((c :: r).takeWhile (fun c2 => c2 != quoteChar))

/-- Match of `\s*'?([^']+)'?` at a fixed position: the regexp engine first
consumes the maximal whitespace run; when the body fails there it gives
one whitespace character back (the character class `[^']` accepts
whitespace, so the run then starts with that character and the match
succeeds); with no whitespace to give back the position fails. -/
def matchAfterLabel (tl : List Char) : Option (List Char) :=
  let ws := tl.takeWhile jsIsSpace
  let rest := tl.drop ws.length
  match matchBody rest with
  | some r => some r
  | none =>
    if ws.isEmpty then none
    else some ((ws.drop (ws.length - 1) ++ rest).takeWhile (fun c2 => c2 != quoteChar))

/-- JS `line.match` against the names regexp: scan for the first position
where the literal `- names:` matches and the rest of the pattern succeeds,
returning the capture group. -/
def jsNamesMatch : List Char → Option (List Char)
  | [] => none
  | c :: rest =>
    match dropLit (("- names:").toList) (c :: rest) with
    | some tl =>
      match matchAfterLabel tl with
      | some r => some r
      | none => jsNamesMatch rest
    | none => jsNamesMatch rest

/-- Entity record produced by the live-context parser (device-cache.js
lines 320-327). -/
structure ParsedDevice where
  id : String
  name : String
  domain : String
  state : String
  area : String
  attributes : List (String × String)
deriving DecidableEq, Repr

/-- JS object property assignment for the `attributes` record: overwrite
in place, otherwise append. -/
def objSet (l : List (String × String)) (k v : String) : List (String × String) :=
  match l with
  | [] => [(k, v)]
  | (k2, v2) :: t => if k2 = k then (k, v) :: t else (k2, v2) :: objSet t k v

/-- Fresh device record built from a names-line capture (device-cache.js
lines 320-327). -/
def newDevice (nm : String) : ParsedDevice where
  id := jsTrim nm
  name := jsTrim nm
  domain := ""
  state := ""
  area := ""
  attributes := []

/-- Field update of the current device for one non-names line
(device-cache.js lines 329-344), applied to the trimmed line. -/
def updateDevice (d : ParsedDevice) (trimmed : List Char) : ParsedDevice :=
  if startsWithL (("domain:").toList) trimmed then
    { d with domain := jsTrim (replaceFirstL (("domain:").toList) trimmed).asString }
  else if startsWithL (("state:").toList) trimmed then
    { d with state :=
        ((jsTrimL (replaceFirstL (("state:").toList) trimmed)).filter
          (fun c => c != quoteChar)).asString }
  else if startsWithL (("areas:").toList) trimmed then
    { d with area := jsTrim (replaceFirstL (("areas:").toList) trimmed).asString }
  else
    match breakAtColon trimmed with
    | some (pre, post) =>
      if ¬startsWithL (("-").toList) trimmed ∧ 0 < pre.length then
        let key := jsTrimL pre
        let value := jsTrimL post
        if ¬key.isEmpty ∧ ¬value.isEmpty then
          let v2 := (value.filter (fun c => c != quoteChar)).asString
          { d with attributes := objSet d.attributes key.asString v2 }
        else d
      else d
    | none => d

/-- Parser accumulator: the committed devices, and the current device (if
any) together with the number of references to it already pushed into the
output array.  JS pushes the object by reference and keeps mutating it, so
a device pushed by a names line whose regexp failed to capture is still
the current device: its copies are materialized only once it stops being
current, with its final field values. -/
structure ParseAcc where
  finished : List ParsedDevice
  current : Option (ParsedDevice × Nat)
deriving Repr

/-- One iteration of the line loop (device-cache.js lines 309-345). -/
def processLine (acc : ParseAcc) (line : String) : ParseAcc :=
  let trimmed := jsTrimL line.toList
  if trimmed.isEmpty || startsWithL (("Live Context:").toList) trimmed then acc
  else if startsWithL (("- names:").toList) line.toList then
    match jsNamesMatch line.toList, acc.current with
    | some m, some (d, n) =>
      { finished := acc.finished ++ List.replicate (n + 1) d
        current := some (newDevice m.asString, 0) }
    | some m, none =>
      { acc with current := some (newDevice m.asString, 0) }
    | none, some (d, n) => { acc with current := some (d, n + 1) }
    | none, none => acc
  else
    match acc.current with
    | some (d, n) => { acc with current := some (updateDevice d trimmed, n) }
    | none => acc

/-- JS `String.prototype.split` on the newline character, by structural
recursion (empty segments are kept, as in JS). -/
def splitOnNl : List Char → List (List Char)
  | [] => [[]]
  | c :: t =>
    if c = Char.ofNat 10 then [] :: splitOnNl t
    else
      match splitOnNl t with
      | h :: r => (c :: h) :: r
      | [] => [[c]]

/-- The `devices` array at the end of the line loop, after the final push
of the current device (device-cache.js lines 306-349), before the final
filter. -/
def parseContextRaw (text : String) : List ParsedDevice :=
  let lines := (splitOnNl text.toList).map List.asString
  let acc := lines.foldl processLine ⟨[], none⟩
  match acc.current with
  | some (d, n) => acc.finished ++ List.replicate (n + 1) d
  | none => acc.finished

/-- Final filter of the parser (device-cache.js line 351):
`device.domain && device.state !== 'unavailable'`. -/
def keepDevice (d : ParsedDevice) : Bool :=
  d.domain != ("") && d.state != ("unavailable")

/-- Text-level live-context parse (device-cache.js lines 304-351). -/
def parseContextText (text : String) : List ParsedDevice :=
  (parseContextRaw text).filter keepDevice

/-- Sanity check of the embedded names regexp and quote stripping: quoted
names and quoted state values parse to their unquoted contents. -/
theorem parseContextText_quoted_sample :
    parseContextText ("- names: 'Front Door'\n  domain: lock\n  state: 'locked'") =
    [{ id := ("Front Door"), name := ("Front Door"), domain := ("lock"),
       state := ("locked"), area := (""), attributes := [] }] := by
  rfl

/-- The decoded JSON envelope's `result` field: a string, or any other
JSON value abstracted to its JS truthiness (`42` or a nonempty array are
truthy non-strings; `0`, `false` and `null` are falsy).  The code only
ever inspects its truthiness and then uses it as a string, so this
abstraction is exact. -/
inductive EnvResult where
  | str (s : String)
  | nonString (truthy : Bool)
deriving DecidableEq, Repr

/-- Value of the `text` field of the first content item: either text that
`JSON.parse` rejects (used verbatim), or a decoded JSON envelope with its
`success` flag and optional `result` value. -/
inductive TextVal where
  | plain (s : String)
  | jsonEnv (success : Bool) (result : Option EnvResult)
deriving DecidableEq, Repr

/-- One element of `result.content` (only the `text` field is read). -/
structure ContentItem where
  text : Option TextVal
deriving DecidableEq, Repr

/-- Shape of `contextData.result`: a plain string (old format) or an
object whose `content` array may be absent. -/
inductive MCPResult where
  | str (s : String)
  | obj (content : Option (List ContentItem))
deriving DecidableEq, Repr

/-- The MCP response object handed to the parser (only the `result` field
is read; an absent field is `none`). -/
structure ContextData where
  result : Option MCPResult
deriving DecidableEq, Repr

/-- JS truthiness of `contextData.result` (an empty string is falsy, any
object is truthy). -/
def resultTruthy : MCPResult → Bool
  | MCPResult.str s => s != ("")
  | MCPResult.obj _ => true

/-- JS truthiness of `content[0].text` (the raw text of a decoded JSON
envelope is never empty). -/
def textTruthy : TextVal → Bool
  | TextVal.plain s => s != ("")
  | TextVal.jsonEnv _ _ => true

/-- JS truthiness of the decoded envelope's `parsed.result` (absent is
`undefined`, falsy). -/
def envResultTruthy : Option EnvResult → Bool
  | none => false
  | some (EnvResult.str s) => s != ("")
  | some (EnvResult.nonString t) => t

/-- Method `parseLiveContext` (device-cache.js lines 271-352): reject null
input and falsy `result`; unwrap the new `result.content[0].text`
envelope (a successfully decoded envelope with truthy `success` and
`result` supplies `contextText`; a text that fails to decode is used
as-is); fall back to a plain string `result`; any other shape yields the
empty list; then run the text parser.  The function is not total: when
the decoded envelope's `result` is a truthy non-string, `contextText` is
not a string and the debug call `contextText.substring(0, 500)` at line
305 — outside any try/catch — throws a TypeError, modelled by the
`Except.error` value. -/
def parseLiveContext (contextData : Option ContextData) :
    Except String (List ParsedDevice) :=
  match contextData with
  | none => Except.ok []
  | some cd =>
    match cd.result with
    | none => Except.ok []
    | some r =>
      if resultTruthy r = false then Except.ok []
      else
        match r with
        | MCPResult.obj content =>
          match content with
          | some (item :: _) =>
            (match item.text with
             | some tv =>
               if textTruthy tv then
                 match tv with
                 | TextVal.plain s2 => Except.ok (parseContextText s2)
                 | TextVal.jsonEnv ok res =>
                   if ok && envResultTruthy res then
                     match res with
                     | some (EnvResult.str rs) => Except.ok (parseContextText rs)
                     | some (EnvResult.nonString _) =>
                       Except.error
                         ("TypeError: contextText.substring is not a function")
                     | none => Except.ok []
                   else Except.ok []
               else Except.ok []
             | none => Except.ok [])
          | some [] => Except.ok []
          | none => Except.ok []
        | MCPResult.str s => Except.ok (parseContextText s)

/-- Two-block sample input: a healthy light and a block whose state is
`unavailable`. -/
def sampleContextTwoBlocks : String :=
  ("- names: Kitchen Light\n  domain: light\n  state: on\n  brightness: 255\n- names: Broken\n  domain: light\n  state: unavailable")

/-- The entity parsed from the first sample block. -/
def sampleKitchenLight : ParsedDevice where
  id := ("Kitchen Light")
  name := ("Kitchen Light")
  domain := ("light")
  state := ("on")
  area := ("")
  attributes := [(("brightness"), ("255"))]

/-- The entity parsed from the second sample block (dropped by the final
filter). -/
def sampleBroken : ParsedDevice where
  id := ("Broken")
  name := ("Broken")
  domain := ("light")
  state := ("unavailable")
  area := ("")
  attributes := []

/-- C8: for every input text, the parser's result is exactly the parsed
block sequence with the blocks whose domain is empty or whose state is
`unavailable` removed: a block survives iff it was parsed and passes that
check, and on the concrete two-block sample the `unavailable` block is
excluded while the other block is untouched. -/
theorem c8_parser_excludes_empty_domain_and_unavailable :
    (∀ (text : String) (d : ParsedDevice),
      d ∈ parseContextText text ↔
        d ∈ parseContextRaw text ∧ d.domain ≠ ("") ∧
          d.state ≠ ("unavailable")) ∧
    parseContextRaw sampleContextTwoBlocks =
      [sampleKitchenLight, sampleBroken] ∧
    parseContextText sampleContextTwoBlocks = [sampleKitchenLight] := by
  refine ⟨?_, by rfl, by rfl⟩
  intro text d
  simp [parseContextText, List.mem_filter, keepDevice, and_assoc]

/-- MCP response whose `content[0].text` decodes to a JSON envelope with
truthy `success` and a truthy non-string `result` (for instance the text
is the JSON `success true, result 42`). -/
def crashingContext : Option ContextData :=
  some ⟨some (MCPResult.obj (some
    [⟨some (TextVal.jsonEnv true (some (EnvResult.nonString true)))⟩]))⟩

/-- C9: the claim says `parseLiveContext` is total and never raises.  At
`crashingContext` the code assigns the decoded non-string `result` to
`contextText` and then reaches `contextText.substring(0, 500)` (line 305,
outside any try/catch), which throws a TypeError — so the parser does
raise.  The null and empty-result cases the claim names do return the
empty sequence without raising. -/
theorem c9_parser_throws_on_nonstring_envelope_result :
    parseLiveContext crashingContext =
      Except.error ("TypeError: contextText.substring is not a function") ∧
    parseLiveContext none = Except.ok [] ∧
    parseLiveContext (some ⟨some (MCPResult.str (""))⟩) = Except.ok [] ∧
    parseLiveContext (some ⟨none⟩) = Except.ok [] :=
  ⟨rfl, rfl, rfl, rfl⟩
